import Mathlib

/-!
Shallow embedding of the configuration-compilation and job-dependency
orchestration engine of `run_xnat2bids.py` (brown-bnc/oscar-scripts).

Python dictionaries are modelled as association lists (`List (String × _)`)
whose order mirrors Python's insertion order; TOML values are modelled by
the inductive `TomlVal`; Python's `exit()` / uncaught exceptions are
modelled by `Except X2BError`; byte strings are modelled as `List Char`.
Network and subprocess boundaries are passed in as function arguments.
-/

namespace OscarX2B

/-- Values that can occur in the TOML configuration: strings, booleans,
integers, and sequences of strings. -/
inductive TomlVal where
  | str (s : String)
  | bool (b : Bool)
  | int (n : Int)
  | arr (l : List String)
deriving DecidableEq

/-- One configuration section: a Python dict from parameter name to value. -/
abbrev Dict := List (String × TomlVal)

/-- A whole configuration: a Python dict from section name to section. -/
abbrev Config := List (String × Dict)

/-- Errors that terminate the Python process.  `invalidParameter` models the
`logging.info(...); exit()` path of `parse_x2b_params`; `keyError` models an
uncaught `KeyError` from a missing dict key. -/
inductive X2BError where
  | invalidParameter (param : String)
  | keyError (key : String)
deriving DecidableEq

/-- Python `exit(code)`: called with no argument (`none`) the process
terminates with status 0. -/
def pyExitCode (code : Option Nat) : Nat :=
  code.getD 0

/-- Process exit status for each fatal path: the invalid-parameter path calls
`exit()` with no argument (status 0); an uncaught exception such as
`KeyError` makes the interpreter exit with status 1. -/
def errorExitCode : X2BError → Nat
  | .invalidParameter _ => pyExitCode none
  | .keyError _ => 1

/-- Lookup in a Python dict modelled as an association list (first match). -/
def lookupStr {α : Type} : List (String × α) → String → Option α
  | [], _ => none
  | (k, v) :: rest, key => if k = key then some v else lookupStr rest key

/-- Python `d[k] = v` on a dict: replace the value of an existing key in
place, otherwise append the new key at the end. -/
def dictSet {α : Type} : List (String × α) → String → α → List (String × α)
  | [], k, v => [(k, v)]
  | (k0, v0) :: rest, k, v =>
    if k0 = k then (k, v) :: rest else (k0, v0) :: dictSet rest k v

/-- Python `d.update(u)`: assign every key/value pair of `u` into `d`,
in `u`'s iteration order. -/
def dictUpdate {α : Type} : List (String × α) → List (String × α) → List (String × α)
  | d, [] => d
  | d, (k, v) :: rest => dictUpdate (dictSet d k v) rest

/-- Fetch a section of the configuration; a missing key is a `KeyError`. -/
def getSection (cfg : Config) (name : String) : Except X2BError Dict :=
  match lookupStr cfg name with
  | some d => .ok d
  | none => .error (.keyError name)

/-- Python `sep.join(parts)`. -/
def joinSep (sep : String) : List String → String
  | [] => ""
  | [x] => x
  | x :: xs => x ++ sep ++ joinSep sep xs

/-- Python `str()` of a TOML value, as used by f-string interpolation. -/
def pyStr : TomlVal → String
  | .str s => s
  | .bool b => if b then "True" else "False"
  | .int n => toString n
  | .arr l => "[" ++ joinSep ", " (l.map (fun s => "\x27" ++ s ++ "\x27")) ++ "]"

/-- Python iteration `for v in value`: iterating a string yields its
characters, iterating a sequence yields its elements.  Iterating a boolean
or integer raises `TypeError` in Python and is outside the modelled flows
(returned as `[]`). -/
def pyIterStrs : TomlVal → List String
  | .str s => s.toList.map (fun c => String.mk [c])
  | .arr l => l
  | .bool _ => []
  | .int _ => []

/-- Does `l` start with `pat`? -/
def startsWith : List Char → List Char → Bool
  | [], _ => true
  | _ :: _, [] => false
  | p :: ps, c :: cs => p == c && startsWith ps cs

/-- Python `pat in l` for strings: does `pat` occur as a contiguous run? -/
def occursIn (pat : List Char) : List Char → Bool
  | [] => startsWith pat []
  | c :: cs => startsWith pat (c :: cs) || occursIn pat cs

/-- Fuel-driven worker for `pyReplace`; the fuel is the length of the vector
being scanned, so it never runs out. -/
def pyReplaceAux (pat rep : List Char) : Nat → List Char → List Char
  | 0, l => l
  | _ + 1, [] => []
  | fuel + 1, c :: cs =>
    if startsWith pat (c :: cs) && !pat.isEmpty then
      rep ++ pyReplaceAux pat rep fuel (cs.drop (pat.length - 1))
    else
      c :: pyReplaceAux pat rep fuel cs

/-- Python `l.replace(pat, rep)`: replace every non-overlapping occurrence,
scanning left to right. -/
def pyReplace (pat rep l : List Char) : List Char :=
  pyReplaceAux pat rep l.length l

/-- The `pyReplace` operation lifted to `String`. -/
def pyReplaceS (s pat rep : String) : String :=
  String.mk (pyReplace pat.toList rep.toList s.toList)

/-- Python `s.split(sep)` for a one-character separator. -/
def splitOnChar (sep : Char) : List Char → List (List Char)
  | [] => [[]]
  | c :: cs =>
    match splitOnChar sep cs with
    | [] => [[]]
    | h :: t => if c == sep then [] :: h :: t else (c :: h) :: t

/-- Characters removed by Python's default `strip()`. -/
def pyWhitespace (c : Char) : Bool :=
  c == ' ' || c == '\t' || c == '\n' || c == '\x0b' || c == '\x0c' || c == '\r'

/-- Python `l.strip()`. -/
def pyStrip (l : List Char) : List Char :=
  ((l.dropWhile pyWhitespace).reverse.dropWhile pyWhitespace).reverse

/-- Python `s.lower()`. -/
def pyLower (s : String) : String :=
  String.mk (s.toList.map Char.toLower)

/-- Python `int()` restricted to strings of decimal digits, the only inputs
`extract_params` feeds it. -/
def charsToNat (l : List Char) : Nat :=
  l.foldl (fun acc c => acc * 10 + (c.toNat - 48)) 0

/-- The four encoding kinds of the `ParamType` enum. -/
inductive ParamType where
  | PARAM_VAL
  | MULTI_VAL
  | FLAG_ONLY
  | MULTI_FLAG
deriving DecidableEq

/-- The ParameterSpec registry `xnat2bids_params`:
name → (encoding kind, needs container binding). -/
def xnat2bids_params : List (String × (ParamType × Bool)) :=
  [ ("bidsmap-file", (.PARAM_VAL, true))
  , ("bids_root", (.PARAM_VAL, true))
  , ("cleanup", (.FLAG_ONLY, false))
  , ("export-only", (.FLAG_ONLY, false))
  , ("host", (.PARAM_VAL, false))
  , ("includeseq", (.MULTI_VAL, false))
  , ("log-id", (.PARAM_VAL, false))
  , ("overwrite", (.FLAG_ONLY, false))
  , ("project", (.PARAM_VAL, false))
  , ("sessions", (.MULTI_VAL, false))
  , ("skip-export", (.FLAG_ONLY, false))
  , ("skipseq", (.MULTI_VAL, false))
  , ("subjects", (.MULTI_VAL, false))
  , ("version", (.PARAM_VAL, false))
  , ("verbose", (.MULTI_FLAG, false)) ]

/-- Is the TOML value a string? (`type(value)==str`). -/
def isStrVal : TomlVal → Bool
  | .str _ => true
  | _ => false

/-- The underlying string of a string-valued `TomlVal`. -/
def strOf : TomlVal → String
  | .str s => s
  | _ => ""

/-- Source `extract_params(param, value)`: encode a `MULTI_VAL` parameter.  For
`includeseq`/`skipseq` with a string value, spaces are removed, the string is
split on commas, and each dash-separated group `a-b` expands to the integers
`a..b`; every other value is iterated Python-style and each element emits one
`--param v` token.  The tokens are joined with single spaces into one
argument string. -/
def extract_params (param : String) (value : TomlVal) : String :=
  if (param = "includeseq" || param = "skipseq") && isStrVal value then
    let val_list := splitOnChar ',' ((strOf value).toList.filter (fun c => !(c == ' ')))
    joinSep " " (val_list.flatMap (fun val =>
      if val.contains '-' then
        let parts := splitOnChar '-' val
        let startval := charsToNat (parts.getD 0 [])
        let stopval := charsToNat (parts.getD 1 [])
        (List.range' startval (stopval + 1 - startval)).map
          (fun v => "--" ++ param ++ " " ++ toString v)
      else ["--" ++ param ++ " " ++ String.mk val]))
  else
    joinSep " " ((pyIterStrs value).map (fun v => "--" ++ param ++ " " ++ v))

/-- Python `range(value)` length as used by the `MULTI_FLAG` branch; booleans
are integers in Python.  Strings and sequences would raise `TypeError` and
are outside the modelled flows. -/
def pyRangeLen : TomlVal → Nat
  | .int n => n.toNat
  | .bool b => if b then 1 else 0
  | .str _ => 0
  | .arr _ => 0

/-- The per-parameter loop of `parse_x2b_params`, in dict iteration order.
An unregistered name aborts (`logging.info(...); exit()`); an empty-string
value (or Python `None`, which TOML cannot produce) is skipped; the two
positional parameters are skipped; otherwise the parameter is encoded
according to its registered kind, and path-binding values are collected. -/
def x2b_loop : List (String × TomlVal) → Except X2BError (List String × List String)
  | [] => .ok ([], [])
  | (param, value) :: rest =>
    match lookupStr xnat2bids_params param with
    | none => .error (.invalidParameter param)
    | some (ptype, needs_binding) =>
      if value = .str "" then x2b_loop rest
      else if param = "sessions" || param = "bids_root" then x2b_loop rest
      else
        match x2b_loop rest with
        | .error e => .error e
        | .ok (args, binds) =>
          let emitted : List String :=
            match ptype with
            | .PARAM_VAL => ["--" ++ param ++ " " ++ pyStr value]
            | .MULTI_VAL => [extract_params param value]
            | .FLAG_ONLY => ["--" ++ param]
            | .MULTI_FLAG => List.replicate (pyRangeLen value) ("--" ++ param)
          let binds' := if needs_binding then pyStr value :: binds else binds
          .ok (emitted ++ args, binds')

/-- Source `parse_x2b_params(xnat2bids_dict, session, bindings)`: the session id is
the first positional argument; a configured `bids_root` is the second and is
registered as a binding; the remaining parameters are encoded by `x2b_loop`.
Returns the argument list and the collected bindings. -/
def parse_x2b_params (xnat2bids_dict : Dict) (session : String) :
    Except X2BError (List String × List String) :=
  let head : List String × List String :=
    match lookupStr xnat2bids_dict "bids_root" with
    | some v => ([session, pyStr v], [pyStr v])
    | none => ([session], [])
  match x2b_loop xnat2bids_dict with
  | .error e => .error e
  | .ok (args, binds) => .ok (head.1 ++ args, head.2 ++ binds)

/-- The skip condition of the entity-section loop in `merge_config_files`:
every top-level key other than the two reserved section names is an entity
override block. -/
def is_entity_key (s : String) : Bool :=
  !(s == "slurm-args") && !(s == "xnat2bids-args")

/-- Source `merge_config_files(user_cfg, default_cfg)`: start from the default
`xnat2bids-args` and `slurm-args` sections, overwrite per key with the user
sections, and copy every other (entity override) section of the user config
into the result.  Missing required sections raise `KeyError`. -/
def merge_config_files (user_cfg default_cfg : Config) : Except X2BError Config :=
  match lookupStr user_cfg "slurm-args" with
  | none => .error (.keyError "slurm-args")
  | some user_slurm =>
    match lookupStr default_cfg "slurm-args" with
    | none => .error (.keyError "slurm-args")
    | some default_slurm =>
      match lookupStr default_cfg "xnat2bids-args" with
      | none => .error (.keyError "xnat2bids-args")
      | some default_x2b =>
        let merged_x2b :=
          match lookupStr user_cfg "xnat2bids-args" with
          | some user_x2b => dictUpdate default_x2b user_x2b
          | none => default_x2b
        let merged_slurm := dictUpdate default_slurm user_slurm
        let entity_secs :=
          (user_cfg.filter (fun p => is_entity_key p.1)).map
            (fun p => (p.1, dictUpdate [] p.2))
        .ok ([("xnat2bids-args", merged_x2b), ("slurm-args", merged_slurm)] ++ entity_secs)

/-- Section-iteration part of `compile_xnat2bids_list`: the
`xnat2bids-args` section is taken as the working parameter map, and a
section named after the current session is overlaid on top of it. -/
def compile_x2b_dict (session : String) (arg_dict : Config) : Dict :=
  arg_dict.foldl
    (fun acc sec =>
      if sec.1 = "xnat2bids-args" then sec.2
      else if sec.1 = session then dictUpdate acc sec.2
      else acc)
    []

/-- Source `compile_xnat2bids_list(session, arg_dict, user)`: merge the shared and
session-specific parameter maps and compile them to an argument list plus
bindings. -/
def compile_xnat2bids_list (session : String) (arg_dict : Config) :
    Except X2BError (List String × List String) :=
  parse_x2b_params (compile_x2b_dict session arg_dict) session

/-- Body of `compile_slurm_list` for a given `slurm-args` section: one
`--param value` string per non-empty entry. -/
def compile_slurm_section (d : Dict) : List String :=
  (d.filter (fun p => !(p.2 == .str ""))).map
    (fun p => "--" ++ p.1 ++ " " ++ pyStr p.2)

/-- Source `compile_slurm_list(arg_dict, user)`. -/
def compile_slurm_list (arg_dict : Config) : Except X2BError (List String) :=
  match lookupStr arg_dict "slurm-args" with
  | none => .error (.keyError "slurm-args")
  | some d => .ok (compile_slurm_section d)

/-- Python `list.insert(i, a)`: indices past the end append. -/
def pyInsert {α : Type} (l : List α) (i : Nat) (a : α) : List α :=
  l.take i ++ a :: l.drop i

/-- The compiled per-session tuple stored in `argument_lists`. -/
structure SessionArgs where
  x2b : List String
  slurm : List String
  bindings : List String
deriving DecidableEq

/-- Loop body of `assemble_argument_lists` for one session: compile the
slurm and xnat2bids lists, insert `--user`/`--pass` at indices 2 and 3,
synthesize a default `--output` log path when none is configured, and insert
the fallback `bids_root` at index 1 when the configuration has none
(registering it as a binding).  Returns the tuple and the (possibly
re-read) `bids_root`. -/
def assemble_one (arg_dict : Config) (session user password bids_root : String) :
    Except X2BError (SessionArgs × String) :=
  match compile_slurm_list arg_dict with
  | .error e => .error e
  | .ok slurm_param_list =>
    match compile_xnat2bids_list session arg_dict with
    | .error e => .error e
    | .ok (x2b0, bindings) =>
      let l2 := pyInsert (pyInsert x2b0 2 ("--user " ++ user)) 3 ("--pass " ++ password)
      match lookupStr arg_dict "slurm-args" with
      | none => .error (.keyError "slurm-args")
      | some slurm_sec =>
        let slurm' :=
          if (lookupStr slurm_sec "output").isNone then
            slurm_param_list ++
              ["--output /gpfs/scratch/" ++ user ++ "/logs/%x-" ++ session ++ "-%J.txt"]
          else slurm_param_list
        match lookupStr arg_dict "xnat2bids-args" with
        | none => .error (.keyError "xnat2bids-args")
        | some x2b_sec =>
          if (lookupStr x2b_sec "bids_root").isSome then
            .ok ({ x2b := l2, slurm := slurm', bindings := bindings }, l2.getD 1 "")
          else
            .ok ({ x2b := pyInsert l2 1 bids_root, slurm := slurm',
                   bindings := bindings ++ [bids_root] }, bids_root)

/-- The session loop of `assemble_argument_lists`, threading the
`bids_root` variable (re-assigned inside the loop) across iterations. -/
def assemble_loop (arg_dict : Config) (user password : String) :
    List String → List SessionArgs → String → Except X2BError (List SessionArgs × String)
  | [], acc, broot => .ok (acc, broot)
  | session :: rest, acc, broot =>
    match assemble_one arg_dict session user password broot with
    | .error e => .error e
    | .ok (sa, broot') => assemble_loop arg_dict user password rest (acc ++ [sa]) broot'

/-- Source `assemble_argument_lists(arg_dict, user, password, bids_root)`. -/
def assemble_argument_lists (arg_dict : Config) (user password bids_root : String) :
    Except X2BError (List SessionArgs × String) :=
  match lookupStr arg_dict "xnat2bids-args" with
  | none => .error (.keyError "xnat2bids-args")
  | some x2b_sec =>
    match lookupStr x2b_sec "sessions" with
    | none => .error (.keyError "sessions")
    | some sessions_val =>
      assemble_loop arg_dict user password (pyIterStrs sessions_val) [] bids_root

/-- The `sbatch` command string built for one session inside
`launch_x2b_jobs` (the line-continuation whitespace of the Python f-string
is collapsed to single spaces). -/
def build_sbatch_cmd (args : SessionArgs) (simg : String) : String :=
  let xnat2bids_options := joinSep " " args.x2b
  let slurm_options := joinSep " " args.slurm
  let bindings := joinSep " " (args.bindings.map (fun path => "-B " ++ path))
  let sbatch_script :=
    "\x27$(cat << EOF #!/bin/sh\n apptainer exec --no-home " ++ bindings ++ " " ++
      simg ++ " xnat2bids " ++ xnat2bids_options ++ "\nEOF\n)\x27"
  "sbatch " ++ slurm_options ++ " --wrap " ++ sbatch_script

/-- Source `launch_x2b_jobs(argument_lists, simg)`: build one sbatch command per
session and set `needs_validation` whenever some argument list lacks
`--export-only`.  The submitted commands stand in for the spawned
subprocesses. -/
def launch_x2b_jobs (argument_lists : List SessionArgs) (simg : String) :
    List String × Bool :=
  argument_lists.foldl
    (fun acc args =>
      (acc.1 ++ [build_sbatch_cmd args simg],
       if "--export-only" ∈ args.x2b then acc.2 else true))
    ([], false)

/-- Composition of the submission pipeline of `main`: compile all argument
lists, then launch the xnat2bids jobs.  A compilation error terminates the
process before any job is submitted. -/
def run_pipeline (arg_dict : Config) (user password bids_root simg : String) :
    Except X2BError (List String × Bool) :=
  match assemble_argument_lists arg_dict user password bids_root with
  | .error e => .error e
  | .ok (lists, _broot) => .ok (launch_x2b_jobs lists simg)

/-- The byte prefix removed by `fetch_job_ids`. -/
def submitted_marker : List Char := "Submitted batch job ".toList

/-- Source `fetch_job_ids(stdout)`: for every acknowledgment line, delete the exact
bytes `Submitted batch job ` wherever they occur and strip whitespace.
No pattern matching, no failure path. -/
def fetch_job_ids (stdout : List (List Char)) : List (List Char) :=
  stdout.map (fun line => pyStrip (pyReplace submitted_marker [] line))

/-- The token-level password redaction loop of `launch_x2b_jobs`: the flag
argument models `exclude_next_opt`. -/
def exclude_pass_loop : Bool → List String → List String
  | _, [] => []
  | true, _ :: rest => exclude_pass_loop false rest
  | false, opt :: rest =>
    if opt = "--pass" then exclude_pass_loop true rest
    else opt :: exclude_pass_loop false rest

/-- Source `xnat2bids_options_without_password`: drop every `--pass` token together
with the token that follows it. -/
def xnat2bids_options_without_password (tokens : List String) : List String :=
  exclude_pass_loop false tokens

/-- Source `prepare_path_prefixes(project, subject)`: PI and study path components
derived from the project name (the subject argument is unused in the
source).  A project name with no underscore would raise `IndexError` in
Python; that case is modelled as the empty study component. -/
def prepare_path_prefixes (project : String) (subject : String) : String × String :=
  let parts := (splitOnChar '_' project.toList).map String.mk
  let _ := subject
  (pyLower (parts.getD 0 ""), pyLower ("study-" ++ parts.getD 1 ""))

/-- The data of one follow-up bids-validator submission: the grouped output
location, the dependency id string `":".join(job_deps)`, and the full
sbatch command string. -/
structure ValidatorJob where
  bids_experiment_dir : String
  afterok_ids : String
  sbatch_cmd : String
deriving DecidableEq

/-- Source `launch_bids_validator(arg_dict, user, password, bids_root, job_deps)`.
The remote metadata service is abstracted as `query : session → (project,
subject)`.  Sessions are grouped by derived BIDS output directory
(first-occurrence order, deduplicated), and one validator sbatch command is
produced per directory, each carrying the dependency clause
`-d afterok:<all job ids joined by ':'>`. -/
def launch_bids_validator (arg_dict : Config) (user bids_root : String)
    (job_deps : List String) (query : String → String × String) :
    Except X2BError (List ValidatorJob) :=
  match lookupStr arg_dict "xnat2bids-args" with
  | none => .error (.keyError "xnat2bids-args")
  | some x2b_sec =>
    match lookupStr x2b_sec "sessions" with
    | none => .error (.keyError "sessions")
    | some sessions_val =>
      let sessions := pyIterStrs sessions_val
      let bids_experiments := sessions.foldl
        (fun acc session =>
          let pq := query session
          let pres := prepare_path_prefixes pq.1 pq.2
          let bids_dir := bids_root ++ "/" ++ pres.1 ++ "/" ++ pres.2 ++ "/bids"
          if bids_dir ∈ acc then acc else acc ++ [bids_dir])
        []
      match lookupStr arg_dict "slurm-args" with
      | none => .error (.keyError "slurm-args")
      | some slurm_sec =>
        let simg := "/gpfs/data/bnc/simgs/bids/validator-latest.sif"
        .ok (bids_experiments.map (fun bids_experiment_dir =>
          let sbatch_bids_val_script :=
            "\"$(cat << EOF #!/bin/sh\n apptainer exec --no-home -B " ++
              bids_experiment_dir ++ " " ++ simg ++ " bids-validator " ++
              bids_experiment_dir ++ "\nEOF\n)\""
          let params0 := compile_slurm_section slurm_sec
          let params1 :=
            if (lookupStr slurm_sec "output").isNone then
              params0 ++ ["--output /gpfs/scratch/" ++ user ++ "/logs/%x-%J.txt"]
            else
              let outstr := pyStr ((lookupStr slurm_sec "output").getD (.str ""))
              let x2b_output := (splitOnChar '/' outstr.toList).map String.mk
              let val_output := joinSep "/" (x2b_output.dropLast ++ ["%x-%J.txt"])
              params0.map (fun item =>
                if occursIn "output".toList item.toList then "--output " ++ val_output
                else item)
          let params2 := params1 ++ ["--kill-on-invalid-dep=yes"]
          let slurm_options :=
            pyReplaceS (joinSep " " params2) "--job-name xnat2bids" "--job-name bids-validator"
          let afterok_ids := joinSep ":" job_deps
          { bids_experiment_dir := bids_experiment_dir
            afterok_ids := afterok_ids
            sbatch_cmd := "sbatch -d afterok:" ++ afterok_ids ++ " " ++ slurm_options ++
              " --wrap " ++ sbatch_bids_val_script }))

/-! ### Generic helper lemmas -/

instance {e a : Type} [DecidableEq e] [DecidableEq a] : DecidableEq (Except e a) := fun x y =>
  match x, y with
  | .ok u, .ok v =>
    if h : u = v then .isTrue (by rw [h]) else .isFalse (fun hc => h (Except.ok.inj hc))
  | .error u, .error v =>
    if h : u = v then .isTrue (by rw [h]) else .isFalse (fun hc => h (Except.error.inj hc))
  | .ok _, .error _ => .isFalse (fun hc => Except.noConfusion hc)
  | .error _, .ok _ => .isFalse (fun hc => Except.noConfusion hc)

theorem exclude_pass_noop (l : List String) (h : "--pass" ∉ l) :
    exclude_pass_loop false l = l := by
  induction l with
  | nil => rfl
  | cons x xs ih =>
    simp only [List.mem_cons, not_or] at h
    rw [exclude_pass_loop, if_neg (fun hx => h.1 hx.symm), ih h.2]

theorem lookupStr_eq_none {α : Type} (l : List (String × α)) (k : String)
    (h : k ∉ l.map Prod.fst) : lookupStr l k = none := by
  induction l with
  | nil => rfl
  | cons p rest ih =>
    obtain ⟨k0, v0⟩ := p
    simp only [List.map_cons, List.mem_cons, not_or] at h
    rw [lookupStr, if_neg (fun hh => h.1 hh.symm)]
    exact ih h.2

theorem lookupStr_dictSet {α : Type} (d : List (String × α)) (k : String) (v : α)
    (key : String) :
    lookupStr (dictSet d k v) key = if k = key then some v else lookupStr d key := by
  induction d with
  | nil => rfl
  | cons p rest ih =>
    obtain ⟨k0, v0⟩ := p
    by_cases h0 : k0 = k
    · simp only [dictSet, if_pos h0, lookupStr]
      by_cases hk : k = key
      · rw [if_pos hk, if_pos hk]
      · rw [if_neg hk, if_neg hk, if_neg (fun hh => hk (h0 ▸ hh))]
    · simp only [dictSet, if_neg h0, lookupStr]
      by_cases hk0 : k0 = key
      · rw [if_pos hk0, if_pos hk0, if_neg (fun hh => h0 (hk0.trans hh.symm))]
      · rw [if_neg hk0, if_neg hk0, ih]

theorem lookup_dictUpdate_none {α : Type} (d u : List (String × α)) (k : String)
    (h : lookupStr u k = none) :
    lookupStr (dictUpdate d u) k = lookupStr d k := by
  induction u generalizing d with
  | nil => rfl
  | cons p rest ih =>
    obtain ⟨k0, v0⟩ := p
    have h0 : ¬ k0 = k := by
      intro hc
      rw [lookupStr, if_pos hc] at h
      exact Option.noConfusion h
    rw [lookupStr, if_neg h0] at h
    rw [dictUpdate, ih _ h, lookupStr_dictSet, if_neg h0]

theorem lookup_dictUpdate_some {α : Type} (d u : List (String × α)) (k : String) (v : α)
    (hu : (u.map Prod.fst).Nodup) (h : lookupStr u k = some v) :
    lookupStr (dictUpdate d u) k = some v := by
  induction u generalizing d with
  | nil => exact Option.noConfusion h
  | cons p rest ih =>
    obtain ⟨k0, v0⟩ := p
    simp only [List.map_cons, List.nodup_cons] at hu
    by_cases hc : k0 = k
    · subst hc
      rw [lookupStr, if_pos rfl] at h
      rw [dictUpdate, lookup_dictUpdate_none _ _ _ (lookupStr_eq_none _ _ hu.1),
        lookupStr_dictSet, if_pos rfl]
      exact h
    · rw [lookupStr, if_neg hc] at h
      rw [dictUpdate]
      exact ih _ hu.2 h

theorem dictSet_not_mem {α : Type} (d : List (String × α)) (k : String) (v : α)
    (h : k ∉ d.map Prod.fst) : dictSet d k v = d ++ [(k, v)] := by
  induction d with
  | nil => rfl
  | cons p rest ih =>
    obtain ⟨k0, v0⟩ := p
    simp only [List.map_cons, List.mem_cons, not_or] at h
    rw [dictSet, if_neg (fun hh => h.1 hh.symm), ih h.2]
    rfl

theorem dictUpdate_append {α : Type} :
    ∀ (u : List (String × α)), (u.map Prod.fst).Nodup →
      ∀ (d : List (String × α)), (∀ k ∈ u.map Prod.fst, k ∉ d.map Prod.fst) →
        dictUpdate d u = d ++ u := by
  intro u
  induction u with
  | nil => intro _ d _; simp [dictUpdate]
  | cons p rest ih =>
    intro hu d hdisj
    obtain ⟨k0, v0⟩ := p
    simp only [List.map_cons, List.nodup_cons] at hu
    have hdisj2 : ∀ k ∈ rest.map Prod.fst, k ∉ (d ++ [(k0, v0)]).map Prod.fst := by
      intro k hk
      have hkd := hdisj k (by simp [hk])
      have hk0 : k ≠ k0 := fun hh => hu.1 (hh ▸ hk)
      simp [hkd, hk0]
    rw [dictUpdate, dictSet_not_mem d k0 v0 (hdisj k0 (by simp)),
      ih hu.2 (d ++ [(k0, v0)]) hdisj2]
    simp

theorem lookup_filter_map (l : List (String × Dict)) (name : String)
    (f : Dict → Dict) (p : String → Bool) (hp : p name = true) :
    lookupStr ((l.filter (fun q => p q.1)).map (fun q => (q.1, f q.2))) name =
      (lookupStr l name).map f := by
  induction l with
  | nil => rfl
  | cons q rest ih =>
    obtain ⟨k0, v0⟩ := q
    by_cases hc : k0 = name
    · subst hc
      rw [List.filter_cons_of_pos (by simpa using hp), List.map_cons, lookupStr,
        if_pos rfl, lookupStr, if_pos rfl]
      rfl
    · cases hpk : p k0 with
      | false =>
        rw [List.filter_cons_of_neg (by simpa using hpk), ih, lookupStr, if_neg hc]
      | true =>
        rw [List.filter_cons_of_pos (by simpa using hpk), List.map_cons, lookupStr,
          if_neg hc, ih, lookupStr, if_neg hc]

theorem pyInsert_cons2 {α : Type} (a b : α) (l : List α) (x : α) :
    pyInsert (a :: b :: l) 2 x = a :: b :: x :: l := rfl

theorem pyInsert_cons3 {α : Type} (a b c : α) (l : List α) (x : α) :
    pyInsert (a :: b :: c :: l) 3 x = a :: b :: c :: x :: l := rfl

theorem pyInsert_cons1 {α : Type} (a : α) (l : List α) (x : α) :
    pyInsert (a :: l) 1 x = a :: x :: l := rfl

theorem startsWith_append (pat s : List Char) : startsWith pat (pat ++ s) = true := by
  induction pat with
  | nil => rfl
  | cons p ps ih => simp [startsWith, ih]

theorem pyReplaceAux_no_occur (pat rep : List Char) :
    ∀ (fuel : Nat) (l : List Char), occursIn pat l = false →
      pyReplaceAux pat rep fuel l = l := by
  intro fuel
  induction fuel with
  | zero => intro l _; rfl
  | succ n ih =>
    intro l h
    match l with
    | [] => rfl
    | c :: cs =>
      rw [occursIn, Bool.or_eq_false_iff] at h
      rw [pyReplaceAux, h.1, Bool.false_and, if_neg (by simp), ih cs h.2]

theorem pyReplaceAux_head (pat rep : List Char) (p : Char) (ps : List Char)
    (hp : pat = p :: ps) (fuel : Nat) (s : List Char) :
    pyReplaceAux pat rep (fuel + 1) (pat ++ s) = rep ++ pyReplaceAux pat rep fuel s := by
  subst hp
  show pyReplaceAux (p :: ps) rep (fuel + 1) (p :: (ps ++ s)) = _
  rw [pyReplaceAux, if_pos]
  · congr 2
    have h1 : (p :: ps).length - 1 = ps.length := by simp
    rw [h1, List.drop_left]
  · rw [show p :: (ps ++ s) = (p :: ps) ++ s from rfl, startsWith_append]
    rfl

/-! ### Claim C3: password redaction -/

/-- Claim C3 (confirmed).  For a compiled command token sequence containing
the credential pair `--pass <value>`, the redacted form produced by the
logging loop of `launch_x2b_jobs` drops exactly the `--pass` flag token and
the value token that follows it, keeps every other token in its original
order, and contains no `--pass` token. -/
theorem pass_redaction (a b : List String) (v : String)
    (ha : "--pass" ∉ a) (hb : "--pass" ∉ b) :
    xnat2bids_options_without_password (a ++ "--pass" :: v :: b) = a ++ b ∧
      "--pass" ∉ a ++ b := by
  constructor
  · unfold xnat2bids_options_without_password
    induction a with
    | nil =>
      rw [List.nil_append, List.nil_append, exclude_pass_loop, if_pos rfl,
        exclude_pass_loop]
      exact exclude_pass_noop b hb
    | cons x xs ih =>
      simp only [List.mem_cons, not_or] at ha
      rw [List.cons_append, exclude_pass_loop, if_neg (fun hx => ha.1 hx.symm),
        ih ha.2, List.cons_append]
  · simp only [List.mem_append, not_or]
    exact ⟨ha, hb⟩

/-- Witness for C3 at a concrete compiled command. -/
theorem pass_redaction_witness :
    xnat2bids_options_without_password
        (["S1", "/data/bids"] ++ "--pass" :: "hunter2" :: ["--overwrite"]) =
      ["S1", "/data/bids"] ++ ["--overwrite"] ∧
    "--pass" ∉ ["S1", "/data/bids"] ++ ["--overwrite"] :=
  pass_redaction ["S1", "/data/bids"] ["--overwrite"] "hunter2" (by decide) (by decide)

/-! ### Claim C4: range expansion -/

/-- Claim C4 (confirmed).  The multi-value string `"1-3,7"` compiles to one
`--includeseq N` token per value `1, 2, 3, 7`, in exactly that order and
with no duplicates: comma groups keep their literal order, each dash range
expands ascending. -/
theorem range_expansion :
    extract_params "includeseq" (TomlVal.str "1-3,7") =
      "--includeseq 1 --includeseq 2 --includeseq 3 --includeseq 7" ∧
    (splitOnChar ' '
        (extract_params "includeseq" (TomlVal.str "1-3,7")).toList).map String.mk =
      ["--includeseq", "1", "--includeseq", "2", "--includeseq", "3",
        "--includeseq", "7"] ∧
    (["1", "2", "3", "7"] : List String).Nodup := by
  refine ⟨by decide, by decide, by decide⟩

/-! ### Claim C10: multi-value string iterates characters -/

/-- Claim C10 (confirmed).  A `MULTI_VAL` parameter other than
`includeseq`/`skipseq` whose value is a single string is iterated
character-by-character by Python, emitting one `--name c` token per
character in string order; e.g. `subjects = "AB"` compiles to
`--subjects A --subjects B`. -/
theorem multival_string_chars (param : String) (s : String)
    (h1 : param ≠ "includeseq") (h2 : param ≠ "skipseq") :
    extract_params param (TomlVal.str s) =
      joinSep " " (s.toList.map (fun c => "--" ++ param ++ " " ++ String.mk [c])) ∧
    parse_x2b_params [("subjects", TomlVal.str "AB")] "S1" =
      .ok (["S1", "--subjects A --subjects B"], []) := by
  constructor
  · rw [extract_params, if_neg (by simp [h1, h2])]
    simp only [pyIterStrs, List.map_map]
    rfl
  · decide

/-- Witness for C10 at `subjects = "AB"`. -/
theorem multival_string_chars_witness :
    extract_params "subjects" (TomlVal.str "AB") =
      joinSep " " ("AB".toList.map (fun c => "--" ++ "subjects" ++ " " ++ String.mk [c])) ∧
    parse_x2b_params [("subjects", TomlVal.str "AB")] "S1" =
      .ok (["S1", "--subjects A --subjects B"], []) :=
  multival_string_chars "subjects" "AB" (by decide) (by decide)

/-! ### Claims C9 and C8: FLAG_ONLY emission and export-only -/

theorem x2b_loop_flag_cons (param : String) (v : TomlVal)
    (rest : List (String × TomlVal))
    (hspec : lookupStr xnat2bids_params param = some (ParamType.FLAG_ONLY, false))
    (h1 : param ≠ "sessions") (h2 : param ≠ "bids_root") (hv : v ≠ TomlVal.str "") :
    x2b_loop ((param, v) :: rest) =
      (x2b_loop rest).map (fun r => (("--" ++ param) :: r.1, r.2)) := by
  simp only [x2b_loop, hspec]
  rw [if_neg hv, if_neg (by simp [h1, h2])]
  cases hr : x2b_loop rest with
  | error e => rfl
  | ok pr => rfl

theorem x2b_loop_skip_empty (param : String) (rest : List (String × TomlVal))
    (spec : ParamType × Bool)
    (hspec : lookupStr xnat2bids_params param = some spec) :
    x2b_loop ((param, TomlVal.str "") :: rest) = x2b_loop rest := by
  obtain ⟨ptype, nb⟩ := spec
  simp only [x2b_loop, hspec, if_true]

/-- Claim C9 (corrected).  A `FLAG_ONLY` parameter emits `--name` exactly
once for EVERY value other than the empty string (Python also skips `None`,
which TOML cannot produce) — in particular also for boolean `false`, because
Python's `False == ""` is false; only an empty-string value suppresses the
token.  The claim's "only if the value is exactly boolean true" does not
hold. -/
theorem flag_emission (param : String) (v : TomlVal) (rest : List (String × TomlVal))
    (hspec : lookupStr xnat2bids_params param = some (ParamType.FLAG_ONLY, false))
    (h1 : param ≠ "sessions") (h2 : param ≠ "bids_root") :
    x2b_loop ((param, v) :: rest) =
      if v = TomlVal.str "" then x2b_loop rest
      else (x2b_loop rest).map (fun r => (("--" ++ param) :: r.1, r.2)) := by
  by_cases hv : v = TomlVal.str ""
  · rw [if_pos hv, hv, x2b_loop_skip_empty param rest _ hspec]
  · rw [if_neg hv, x2b_loop_flag_cons param v rest hspec h1 h2 hv]

/-- Witness for C9: `overwrite = false` still emits `--overwrite`. -/
theorem flag_emission_witness :
    x2b_loop [("overwrite", TomlVal.bool false)] =
      if TomlVal.bool false = TomlVal.str "" then x2b_loop []
      else (x2b_loop []).map (fun r => (("--" ++ "overwrite") :: r.1, r.2)) :=
  flag_emission "overwrite" (TomlVal.bool false) [] (by decide) (by decide) (by decide)

/-- Counterexample for C9 as stated: the claim says a Flag parameter with
boolean value `false` emits no token, but the compiled list for
`overwrite = false` contains `--overwrite`. -/
theorem flag_false_emitted :
    parse_x2b_params [("overwrite", TomlVal.bool false)] "S1" =
      .ok (["S1", "--overwrite"], []) := by decide

theorem launch_nv_fold (simg : String) :
    ∀ (lists : List SessionArgs) (acc : List String) (b : Bool),
      (lists.foldl
        (fun acc2 args =>
          (acc2.1 ++ [build_sbatch_cmd args simg],
           if "--export-only" ∈ args.x2b then acc2.2 else true))
        (acc, b)).2 = true ↔
        (b = true ∨ ∃ a ∈ lists, "--export-only" ∉ a.x2b) := by
  intro lists
  induction lists with
  | nil => intro acc b; simp
  | cons x xs ih =>
    intro acc b
    rw [List.foldl_cons,
      show (if "--export-only" ∈ x.x2b then b else true) =
          (b || !decide ("--export-only" ∈ x.x2b)) from by
        by_cases hx : "--export-only" ∈ x.x2b <;> simp [hx],
      ih]
    by_cases hx : "--export-only" ∈ x.x2b <;> simp [hx]

/-- Claim C8 (corrected).  When the merged parameter map sets `export-only`
to a non-empty value (such as boolean `true`), compilation DOES emit the
`--export-only` argument token — there is no alternate tool command variant
in the code, which always invokes `xnat2bids`.  The only effect of the
token is downstream: `needs_validation` is set iff some submitted job's
argument list lacks `--export-only`, so an all-export-only run suppresses
the validator stage. -/
theorem export_only_behavior :
    (∀ (v : TomlVal) (rest : List (String × TomlVal)), v ≠ TomlVal.str "" →
      x2b_loop (("export-only", v) :: rest) =
        (x2b_loop rest).map (fun r => ("--export-only" :: r.1, r.2))) ∧
    (∀ (lists : List SessionArgs) (simg : String),
      (launch_x2b_jobs lists simg).2 = true ↔ ∃ a ∈ lists, "--export-only" ∉ a.x2b) := by
  constructor
  · intro v rest hv
    have h := x2b_loop_flag_cons "export-only" v rest (by decide) (by decide) (by decide) hv
    rwa [show ("--" ++ "export-only" : String) = "--export-only" from rfl] at h
  · intro lists simg
    rw [launch_x2b_jobs, launch_nv_fold simg lists [] false]
    simp

/-- Witness for C8 at concrete inputs. -/
theorem export_only_behavior_witness :
    (x2b_loop [("export-only", TomlVal.bool true)] =
      (x2b_loop []).map (fun r => ("--export-only" :: r.1, r.2))) ∧
    ((launch_x2b_jobs [⟨["S1"], [], []⟩] "simg").2 = true ↔
      ∃ a ∈ [(⟨["S1"], [], []⟩ : SessionArgs)], "--export-only" ∉ a.x2b) :=
  ⟨export_only_behavior.1 (TomlVal.bool true) [] (by decide),
   export_only_behavior.2 [⟨["S1"], [], []⟩] "simg"⟩

/-- Counterexample for C8 as stated: the claim says `export-only = true`
emits no argument token for that parameter, but compilation emits
`--export-only`. -/
theorem export_only_token_emitted :
    parse_x2b_params [("export-only", TomlVal.bool true)] "S1" =
      .ok (["S1", "--export-only"], []) := by decide

/-! ### Claim C6: scheduler acknowledgment parsing -/

/-- Claim C6 (corrected).  `fetch_job_ids` performs a case-sensitive
`replace` of the exact bytes `Submitted batch job ` followed by `strip`:
an acknowledgment carrying that exact prefix yields the stripped remainder
(the trailing integer), while a line in which the exact prefix never occurs
is returned stripped-but-otherwise-unchanged — there is no case-insensitive
matching and no `SubmissionParseError` failure path anywhere in the code. -/
theorem job_id_extraction (s : List Char) (h : occursIn submitted_marker s = false) :
    fetch_job_ids [submitted_marker ++ s] = [pyStrip s] ∧
    fetch_job_ids [s] = [pyStrip s] := by
  have hmarker : submitted_marker = 'S' :: "ubmitted batch job ".toList := by decide
  constructor
  · have key : pyReplace submitted_marker [] (submitted_marker ++ s) = s := by
      have hm20 : submitted_marker.length = 20 := by decide
      have hlen : (submitted_marker ++ s).length = (s.length + 19) + 1 := by
        rw [List.length_append, hm20]; omega
      rw [pyReplace, hlen,
        pyReplaceAux_head submitted_marker [] 'S' ("ubmitted batch job ".toList) hmarker
          (s.length + 19) s,
        List.nil_append, pyReplaceAux_no_occur submitted_marker [] (s.length + 19) s h]
    simp [fetch_job_ids, key]
  · simp [fetch_job_ids, pyReplace, pyReplaceAux_no_occur submitted_marker [] s.length s h]

/-- Witness for C6: the exact acknowledgment yields the job id, a
non-matching line is returned as-is. -/
theorem job_id_extraction_witness :
    fetch_job_ids [submitted_marker ++ "123".toList] = [pyStrip "123".toList] ∧
    fetch_job_ids ["123".toList] = [pyStrip "123".toList] :=
  job_id_extraction "123".toList (by decide)

/-- Counterexample for C6 as stated: the acknowledgment
`submitted batch job 42` matches the claimed case-insensitive pattern, so
the claim requires the extraction to return `42`; the code returns the whole
line unchanged (and no `SubmissionParseError` exists to be raised). -/
theorem job_id_extraction_cex :
    fetch_job_ids ["submitted batch job 42".toList] =
      ["submitted batch job 42".toList] ∧
    "submitted batch job 42".toList ≠ "42".toList := by
  refine ⟨by decide, by decide⟩

/-! ### Claim C1: unknown parameter aborts the run -/

theorem x2b_loop_unknown :
    ∀ (d : Dict), (∃ p, p ∈ d.map Prod.fst ∧ lookupStr xnat2bids_params p = none) →
      ∃ q, x2b_loop d = .error (.invalidParameter q) ∧
        lookupStr xnat2bids_params q = none ∧ q ∈ d.map Prod.fst := by
  intro d
  induction d with
  | nil => rintro ⟨p, hp, _⟩; simp at hp
  | cons pv rest ih =>
    rintro ⟨p, hp, hnone⟩
    obtain ⟨param, value⟩ := pv
    cases hreg : lookupStr xnat2bids_params param with
    | none =>
      refine ⟨param, ?_, hreg, by simp⟩
      simp only [x2b_loop, hreg]
    | some spec =>
      obtain ⟨ptype, needs⟩ := spec
      have hp2 : p ∈ rest.map Prod.fst := by
        rcases List.mem_cons.mp hp with rfl | h2
        · rw [hreg] at hnone; exact Option.noConfusion hnone
        · exact h2
      obtain ⟨q, hq1, hq2, hq3⟩ := ih ⟨p, hp2, hnone⟩
      refine ⟨q, ?_, hq2, by simp [hq3]⟩
      simp only [x2b_loop, hreg]
      split
      · exact hq1
      · split
        · exact hq1
        · simp [hq1]

theorem parse_unknown (d : Dict) (session : String)
    (h : ∃ p, p ∈ d.map Prod.fst ∧ lookupStr xnat2bids_params p = none) :
    ∃ q, parse_x2b_params d session = .error (.invalidParameter q) ∧
      lookupStr xnat2bids_params q = none ∧ q ∈ d.map Prod.fst := by
  obtain ⟨q, hq1, hq2, hq3⟩ := x2b_loop_unknown d h
  exact ⟨q, by simp [parse_x2b_params, hq1], hq2, hq3⟩

/-- Claim C1 (corrected).  A parameter without a registered spec makes
compilation abort with an error naming an offending (unregistered)
parameter of the map, and any compilation error stops the pipeline before
any job-launch command is produced (zero jobs submitted).  However the
abort path calls Python `exit()` with NO argument, so the process
terminates with exit status 0, not the non-zero status the claim
requires. -/
theorem invalid_param_aborts :
    (∀ (d : Dict) (session : String),
      (∃ p, p ∈ d.map Prod.fst ∧ lookupStr xnat2bids_params p = none) →
      ∃ q, parse_x2b_params d session = .error (.invalidParameter q) ∧
        lookupStr xnat2bids_params q = none ∧ q ∈ d.map Prod.fst ∧
        errorExitCode (.invalidParameter q) = 0) ∧
    (∀ (arg_dict : Config) (user password bids_root simg : String) (e : X2BError),
      assemble_argument_lists arg_dict user password bids_root = .error e →
      run_pipeline arg_dict user password bids_root simg = .error e) := by
  constructor
  · intro d session h
    obtain ⟨q, h1, h2, h3⟩ := parse_unknown d session h
    exact ⟨q, h1, h2, h3, rfl⟩
  · intro arg_dict user password bids_root simg e he
    simp [run_pipeline, he]

/-- A configuration whose `S1` entity override block holds the unregistered
parameter `--bogus`. -/
def cfgBogus : Config :=
  [ ("xnat2bids-args", [("sessions", .arr ["S1"])])
  , ("slurm-args", [])
  , ("S1", [("--bogus", .str "1")]) ]

/-- Witness for C1 at concrete inputs. -/
theorem invalid_param_aborts_witness :
    (∃ q, parse_x2b_params [("--bogus", TomlVal.str "1")] "S1" =
        .error (.invalidParameter q) ∧
      lookupStr xnat2bids_params q = none ∧
      q ∈ ([("--bogus", TomlVal.str "1")] : Dict).map Prod.fst ∧
      errorExitCode (.invalidParameter q) = 0) ∧
    run_pipeline cfgBogus "u" "p" "/root" "simg" =
      .error (.invalidParameter "--bogus") :=
  ⟨invalid_param_aborts.1 [("--bogus", TomlVal.str "1")] "S1"
      ⟨"--bogus", by decide, by decide⟩,
   invalid_param_aborts.2 cfgBogus "u" "p" "/root" "simg"
      (.invalidParameter "--bogus") (by decide)⟩

/-- Counterexample for C1 as stated: with `--bogus` in the `S1` override
block the whole pipeline aborts with zero submitted jobs and the error
names the parameter, but the process exit status is 0 (`exit()` with no
argument), not non-zero. -/
theorem invalid_param_exit_zero_cex :
    run_pipeline cfgBogus "u" "p" "/root" "simg" =
      .error (.invalidParameter "--bogus") ∧
    errorExitCode (.invalidParameter "--bogus") = 0 := by
  refine ⟨by decide, rfl⟩

/-! ### Claim C5: configuration merge semantics -/

/-- Claim C5 (confirmed).  Whenever `merge_config_files` succeeds (both
configurations carry the sections the code reads unconditionally, which is
the Python `KeyError`-free domain): every key of the override's
`xnat2bids-args` appears in the merged `xnat2bids-args` with the override's
value; every key only in the base's `xnat2bids-args` keeps the base value
(shallow per-key override); and every non-reserved top-level key of the
override appears in the result verbatim as an entity override block.
Key-uniqueness hypotheses reflect the Python dict invariant. -/
theorem merge_semantics (user_cfg default_cfg : Config) (us ds dx ux : Dict)
    (m : Config)
    (h1 : lookupStr user_cfg "slurm-args" = some us)
    (h2 : lookupStr default_cfg "slurm-args" = some ds)
    (h3 : lookupStr default_cfg "xnat2bids-args" = some dx)
    (h4 : lookupStr user_cfg "xnat2bids-args" = some ux)
    (hux : (ux.map Prod.fst).Nodup)
    (hm : merge_config_files user_cfg default_cfg = .ok m) :
    (∀ k v, lookupStr ux k = some v →
      ∃ x2b, lookupStr m "xnat2bids-args" = some x2b ∧ lookupStr x2b k = some v) ∧
    (∀ k v, lookupStr dx k = some v → lookupStr ux k = none →
      ∃ x2b, lookupStr m "xnat2bids-args" = some x2b ∧ lookupStr x2b k = some v) ∧
    (∀ name sec, name ≠ "slurm-args" → name ≠ "xnat2bids-args" →
      (sec.map Prod.fst).Nodup → lookupStr user_cfg name = some sec →
      lookupStr m name = some sec) := by
  have hm2 : [("xnat2bids-args", dictUpdate dx ux), ("slurm-args", dictUpdate ds us)] ++
      (user_cfg.filter (fun p => is_entity_key p.1)).map
        (fun p => (p.1, dictUpdate [] p.2)) = m := by
    rw [merge_config_files, h1, h2, h3, h4] at hm
    exact Except.ok.inj hm
  have hx2b : lookupStr m "xnat2bids-args" = some (dictUpdate dx ux) := by
    rw [← hm2]; rfl
  refine ⟨?_, ?_, ?_⟩
  · intro k v hk
    exact ⟨dictUpdate dx ux, hx2b, lookup_dictUpdate_some dx ux k v hux hk⟩
  · intro k v hk hnone
    refine ⟨dictUpdate dx ux, hx2b, ?_⟩
    rw [lookup_dictUpdate_none dx ux k hnone]
    exact hk
  · intro name sec hn1 hn2 hns husr
    rw [← hm2, List.cons_append, List.cons_append, List.nil_append, lookupStr,
      if_neg (fun hh => hn2 hh.symm), lookupStr, if_neg (fun hh => hn1 hh.symm),
      lookup_filter_map user_cfg name (dictUpdate []) is_entity_key
        (by simp [is_entity_key, hn1, hn2]),
      husr, Option.map_some', dictUpdate_append sec hns [] (by simp),
      List.nil_append]

/-- A concrete user configuration for the C5 witness. -/
def userCfgW : Config :=
  [ ("slurm-args", [("mem", .str "2G")])
  , ("xnat2bids-args", [("overwrite", .bool true)])
  , ("S1", [("includeseq", .str "1-2")]) ]

/-- A concrete default configuration for the C5 witness. -/
def defaultCfgW : Config :=
  [ ("xnat2bids-args", [("host", .str "h"), ("overwrite", .bool false)])
  , ("slurm-args", [("time", .str "1:00")]) ]

/-- Witness for C5 at concrete configurations. -/
theorem merge_semantics_witness :
    (∀ k v, lookupStr [("overwrite", TomlVal.bool true)] k = some v →
      ∃ x2b, lookupStr
          [ ("xnat2bids-args",
              [("host", TomlVal.str "h"), ("overwrite", TomlVal.bool true)])
          , ("slurm-args", [("time", TomlVal.str "1:00"), ("mem", TomlVal.str "2G")])
          , ("S1", [("includeseq", TomlVal.str "1-2")]) ] "xnat2bids-args" =
          some x2b ∧ lookupStr x2b k = some v) ∧
    (∀ k v, lookupStr [("host", TomlVal.str "h"), ("overwrite", TomlVal.bool false)] k =
        some v →
      lookupStr [("overwrite", TomlVal.bool true)] k = none →
      ∃ x2b, lookupStr
          [ ("xnat2bids-args",
              [("host", TomlVal.str "h"), ("overwrite", TomlVal.bool true)])
          , ("slurm-args", [("time", TomlVal.str "1:00"), ("mem", TomlVal.str "2G")])
          , ("S1", [("includeseq", TomlVal.str "1-2")]) ] "xnat2bids-args" =
          some x2b ∧ lookupStr x2b k = some v) ∧
    (∀ name sec, name ≠ "slurm-args" → name ≠ "xnat2bids-args" →
      (sec.map Prod.fst).Nodup → lookupStr userCfgW name = some sec →
      lookupStr
          [ ("xnat2bids-args",
              [("host", TomlVal.str "h"), ("overwrite", TomlVal.bool true)])
          , ("slurm-args", [("time", TomlVal.str "1:00"), ("mem", TomlVal.str "2G")])
          , ("S1", [("includeseq", TomlVal.str "1-2")]) ] name = some sec) :=
  merge_semantics userCfgW defaultCfgW
    [("mem", TomlVal.str "2G")] [("time", TomlVal.str "1:00")]
    [("host", TomlVal.str "h"), ("overwrite", TomlVal.bool false)]
    [("overwrite", TomlVal.bool true)] _
    (by decide) (by decide) (by decide) (by decide) (by decide) (by decide)

/-! ### Claim C7: credential token positions -/

theorem parse_ok_some (d : Dict) (session : String) (v : TomlVal)
    (args binds : List String)
    (hb : lookupStr d "bids_root" = some v) (hl : x2b_loop d = .ok (args, binds)) :
    parse_x2b_params d session =
      .ok (session :: pyStr v :: args, pyStr v :: binds) := by
  simp [parse_x2b_params, hb, hl]

theorem parse_ok_none (d : Dict) (session : String) (args binds : List String)
    (hb : lookupStr d "bids_root" = none) (hl : x2b_loop d = .ok (args, binds)) :
    parse_x2b_params d session = .ok (session :: args, binds) := by
  simp [parse_x2b_params, hb, hl]

/-- Claim C7 (corrected).  The credential tokens sit at positions 2 and 3
(right after the output-location positional) ONLY when `bids_root` is
configured in the `xnat2bids-args` section.  When the fallback default
output location is used, the `--user`/`--pass` insertions at indices 2 and
3 happen BEFORE the fallback is inserted at index 1, so whenever at least
one option token was emitted the list begins entity-id, output-location,
first option token, user token, password token. -/
theorem credential_positions :
    (∀ (arg_dict : Config) (session user password bids_root : String)
        (x2b_sec : Dict) (rv mv : TomlVal) (sa : SessionArgs) (broot : String),
      lookupStr arg_dict "xnat2bids-args" = some x2b_sec →
      lookupStr x2b_sec "bids_root" = some rv →
      lookupStr (compile_x2b_dict session arg_dict) "bids_root" = some mv →
      assemble_one arg_dict session user password bids_root = .ok (sa, broot) →
      ∃ rest, sa.x2b =
        session :: pyStr mv :: ("--user " ++ user) :: ("--pass " ++ password) :: rest) ∧
    (∀ (arg_dict : Config) (session user password bids_root : String)
        (x2b_sec : Dict) (a : String) (rest binds : List String)
        (sa : SessionArgs) (broot : String),
      lookupStr arg_dict "xnat2bids-args" = some x2b_sec →
      lookupStr x2b_sec "bids_root" = none →
      lookupStr (compile_x2b_dict session arg_dict) "bids_root" = none →
      x2b_loop (compile_x2b_dict session arg_dict) = .ok (a :: rest, binds) →
      assemble_one arg_dict session user password bids_root = .ok (sa, broot) →
      sa.x2b = session :: bids_root :: a ::
        ("--user " ++ user) :: ("--pass " ++ password) :: rest) := by
  constructor
  · intro arg_dict session user password bids_root x2b_sec rv mv sa broot h1 h2 h3 h4
    cases hsl : lookupStr arg_dict "slurm-args" with
    | none =>
      rw [assemble_one, compile_slurm_list, hsl] at h4
      exact Except.noConfusion h4
    | some slurm_sec =>
      cases hl : x2b_loop (compile_x2b_dict session arg_dict) with
      | error e =>
        have hcx : compile_xnat2bids_list session arg_dict = .error e := by
          simp [compile_xnat2bids_list, parse_x2b_params, hl]
        rw [assemble_one, compile_slurm_list, hsl, hcx] at h4
        exact Except.noConfusion h4
      | ok pr =>
        obtain ⟨args, binds⟩ := pr
        have hcx : compile_xnat2bids_list session arg_dict =
            .ok (session :: pyStr mv :: args, pyStr mv :: binds) := by
          rw [compile_xnat2bids_list]
          exact parse_ok_some _ _ _ _ _ h3 hl
        simp only [assemble_one, compile_slurm_list, hsl, hcx, h1, h2,
          Option.isSome_some, if_true, pyInsert_cons2, pyInsert_cons3,
          Except.ok.injEq, Prod.mk.injEq] at h4
        obtain ⟨hsa, -⟩ := h4
        exact ⟨args, by rw [← hsa]⟩
  · intro arg_dict session user password bids_root x2b_sec a rest binds sa broot
      h1 h2 h3 hl h4
    cases hsl : lookupStr arg_dict "slurm-args" with
    | none =>
      rw [assemble_one, compile_slurm_list, hsl] at h4
      exact Except.noConfusion h4
    | some slurm_sec =>
      have hcx : compile_xnat2bids_list session arg_dict =
          .ok (session :: a :: rest, binds) := by
        rw [compile_xnat2bids_list]
        exact parse_ok_none _ _ _ _ h3 hl
      simp only [assemble_one, compile_slurm_list, hsl, hcx, h1, h2,
        Option.isSome_none, Bool.false_eq_true, if_false, pyInsert_cons2,
        pyInsert_cons3, pyInsert_cons1, Except.ok.injEq, Prod.mk.injEq] at h4
      obtain ⟨hsa, -⟩ := h4
      rw [← hsa]

/-- A configuration with no `bids_root` whose compiled list shows the
misplaced credentials. -/
def cfgNoRoot : Config :=
  [ ("xnat2bids-args", [("overwrite", .bool true)])
  , ("slurm-args", []) ]

/-- A configuration that does set `bids_root` in `xnat2bids-args`. -/
def cfgWithRoot : Config :=
  [ ("xnat2bids-args", [("bids_root", .str "/b"), ("overwrite", .bool true)])
  , ("slurm-args", []) ]

/-- Witness for C7 at concrete configurations, covering both branches. -/
theorem credential_positions_witness :
    (∃ rest,
      (SessionArgs.mk
          ["S1", "/b", "--user u", "--pass p", "--overwrite"]
          ["--output /gpfs/scratch/u/logs/%x-S1-%J.txt"] ["/b"]).x2b =
        "S1" :: pyStr (TomlVal.str "/b") :: ("--user " ++ "u") ::
          ("--pass " ++ "p") :: rest) ∧
    (SessionArgs.mk
        ["S1", "/root", "--overwrite", "--user u", "--pass p"]
        ["--output /gpfs/scratch/u/logs/%x-S1-%J.txt"] ["/root"]).x2b =
      "S1" :: "/root" :: "--overwrite" ::
        ("--user " ++ "u") :: ("--pass " ++ "p") :: [] :=
  ⟨credential_positions.1 cfgWithRoot "S1" "u" "p" "/root"
      [("bids_root", .str "/b"), ("overwrite", .bool true)]
      (TomlVal.str "/b") (TomlVal.str "/b") _ "/b"
      (by decide) (by decide) (by decide) (by decide),
   credential_positions.2 cfgNoRoot "S1" "u" "p" "/root"
      [("overwrite", .bool true)] "--overwrite" [] [] _ "/root"
      (by decide) (by decide) (by decide) (by decide) (by decide)⟩

/-- Counterexample for C7 as stated: with the fallback output location and
one emitted option, position 2 of the assembled list is the option token,
not the user credential token, so the list does not begin
entity-id, output-location, user, password. -/
theorem credential_positions_cex :
    (assemble_one cfgNoRoot "S1" "u" "p" "/root").map (fun r => r.1.x2b) =
      .ok ["S1", "/root", "--overwrite", "--user u", "--pass p"] ∧
    (["S1", "/root", "--overwrite", "--user u", "--pass p"].getD 2 "" ≠
      "--user " ++ "u") := by
  refine ⟨by decide, by decide⟩

/-! ### Claim C2: validator dependency clause -/

theorem dedup_fold_nodup (f : String → String) :
    ∀ (l : List String) (acc : List String), acc.Nodup →
      (l.foldl (fun acc2 s => if f s ∈ acc2 then acc2 else acc2 ++ [f s]) acc).Nodup := by
  intro l
  induction l with
  | nil => intro acc h; exact h
  | cons x xs ih =>
    intro acc h
    rw [List.foldl_cons]
    by_cases hx : f x ∈ acc
    · rw [if_pos hx]; exact ih acc h
    · rw [if_neg hx]
      refine ih _ (List.nodup_append.mpr ⟨h, List.nodup_singleton _, ?_⟩)
      intro y hy hmem
      rw [List.mem_singleton] at hmem
      exact hx (hmem ▸ hy)

theorem map_dirproj (g : String → ValidatorJob)
    (hg : ∀ d, (g d).bids_experiment_dir = d) (dirs : List String)
    (hnd : dirs.Nodup) :
    ((dirs.map g).map (fun j => j.bids_experiment_dir)).Nodup := by
  rw [List.map_map]
  rw [show ((fun j : ValidatorJob => j.bids_experiment_dir) ∘ g) = fun d => d from
    funext hg]
  simpa using hnd

theorem sbatch_cmd_decomp (p ids sp slurm w scr : String) :
    ∃ tail, p ++ ids ++ sp ++ slurm ++ w ++ scr = p ++ ids ++ sp ++ tail :=
  ⟨slurm ++ w ++ scr, by
    rw [String.append_assoc (p ++ ids ++ sp) slurm w,
      String.append_assoc (p ++ ids ++ sp) (slurm ++ w) scr]⟩

/-- Claim C2 (corrected).  Every follow-up validator submission carries a
dependency clause of the form `-d afterok:<ids joined by ':'>` — condition
keyword `afterok`, separator `:` — and exactly one validator job is
produced per distinct output location.  However the id list in EVERY
group's clause is the full `job_deps` list of ALL submitted primary jobs,
not the ids of the jobs sharing that group's output location (the code
never associates job ids with output locations). -/
theorem validator_dependency (arg_dict : Config) (user bids_root : String)
    (job_deps : List String) (query : String → String × String)
    (jobs : List ValidatorJob)
    (h : launch_bids_validator arg_dict user bids_root job_deps query = .ok jobs) :
    (∀ j ∈ jobs, j.afterok_ids = joinSep ":" job_deps ∧
      ∃ tail, j.sbatch_cmd =
        "sbatch -d afterok:" ++ joinSep ":" job_deps ++ " " ++ tail) ∧
    (jobs.map (fun j => j.bids_experiment_dir)).Nodup := by
  cases hx : lookupStr arg_dict "xnat2bids-args" with
  | none =>
    simp only [launch_bids_validator, hx] at h
    exact Except.noConfusion h
  | some x2b_sec =>
    cases hs : lookupStr x2b_sec "sessions" with
    | none =>
      simp only [launch_bids_validator, hx, hs] at h
      exact Except.noConfusion h
    | some sessions_val =>
      cases hsl : lookupStr arg_dict "slurm-args" with
      | none =>
        simp only [launch_bids_validator, hx, hs, hsl] at h
        exact Except.noConfusion h
      | some slurm_sec =>
        simp only [launch_bids_validator, hx, hs, hsl, Except.ok.injEq] at h
        constructor
        · intro j hj
          rw [← h] at hj
          obtain ⟨dir, hdir, rfl⟩ := List.mem_map.mp hj
          exact ⟨rfl, sbatch_cmd_decomp _ _ _ _ _ _⟩
        · rw [← h]
          exact map_dirproj _ (fun d => rfl) _
            (dedup_fold_nodup _ _ [] List.nodup_nil)

/-- A configuration with two sessions whose projects resolve to two
different output locations. -/
def cfgTwoSessions : Config :=
  [ ("xnat2bids-args", [("sessions", .arr ["s1", "s2"])])
  , ("slurm-args", []) ]

/-- The metadata query used by the C2 witness and counterexample: session
`s1` belongs to project `P1_A`, session `s2` to project `P2_B`. -/
def queryTwo : String → String × String :=
  fun s => if s = "s1" then ("P1_A", "x") else ("P2_B", "x")

set_option maxRecDepth 10000 in
/-- Witness for C2 at concrete inputs. -/
theorem validator_dependency_witness :
    (∀ j ∈ (launch_bids_validator cfgTwoSessions "u" "/b" ["11", "22"]
        queryTwo).toOption.getD [],
      j.afterok_ids = joinSep ":" ["11", "22"] ∧
      ∃ tail, j.sbatch_cmd =
        "sbatch -d afterok:" ++ joinSep ":" ["11", "22"] ++ " " ++ tail) ∧
    (((launch_bids_validator cfgTwoSessions "u" "/b" ["11", "22"]
        queryTwo).toOption.getD []).map (fun j => j.bids_experiment_dir)).Nodup :=
  validator_dependency cfgTwoSessions "u" "/b" ["11", "22"] queryTwo _ (by decide)

set_option maxRecDepth 10000 in
/-- Counterexample for C2 as stated: primary job `11` (session `s1`) and
job `22` (session `s2`) write to different output locations, so the claim
requires the validator for `/b/p1/study-a/bids` to depend exactly on its
group's id `11`; the code gives both validator jobs the clause id string
`11:22`. -/
theorem validator_dependency_cex :
    (launch_bids_validator cfgTwoSessions "u" "/b" ["11", "22"] queryTwo).map
        (fun js => js.map (fun j => (j.bids_experiment_dir, j.afterok_ids))) =
      .ok [("/b/p1/study-a/bids", "11:22"), ("/b/p2/study-b/bids", "11:22")] ∧
    ("11:22" : String) ≠ "11" := by
  refine ⟨by decide, by decide⟩

end OscarX2B
